import Mathlib

/-!
Shallow embedding of the expense-tracker tool server (src/main.py).

The server stores expense records in a single SQLite table and exposes the
tools add_expense, list_expenses, update_expense, delete_expense and
summarize_expenses.  This file models the calendar-date handling, the
natural-language date-range resolution shared by list_expenses and
summarize_expenses, the record store with its create/update/delete
operations, the filter/sort/limit pipeline of list_expenses, and the
grouping/percentage computation of summarize_expenses, and proves the
specified properties about them.

Python floats (SQLite REAL) are modelled as rationals, SQLite TEXT
comparison (memcmp on the stored ISO date strings, which are ASCII) as
lexicographic comparison of the character lists, and the AUTOINCREMENT
row id as a counter that is never reused.
-/

namespace ExpenseTracker

/-! ### Characters and digits -/

/-- Value of an ASCII digit character, if it is one.  Embeds the digit test
and digit value used both by the ISO-date reading and by the
int(filter(str.isdigit, ...)) idiom of the "last N days" branch
(ASCII digits; other Unicode digit characters are not modelled). -/
def digitVal? (c : Char) : Option Nat :=
  if c = '0' then some 0
  else if c = '1' then some 1
  else if c = '2' then some 2
  else if c = '3' then some 3
  else if c = '4' then some 4
  else if c = '5' then some 5
  else if c = '6' then some 6
  else if c = '7' then some 7
  else if c = '8' then some 8
  else if c = '9' then some 9
  else none

/-- The ASCII digit character for a value below ten. -/
def digitCharOf (n : Nat) : Char :=
  if n = 0 then '0'
  else if n = 1 then '1'
  else if n = 2 then '2'
  else if n = 3 then '3'
  else if n = 4 then '4'
  else if n = 5 then '5'
  else if n = 6 then '6'
  else if n = 7 then '7'
  else if n = 8 then '8'
  else '9'

/-- Lower-casing of a single character, as str.lower acts on ASCII. -/
def lowerChar (c : Char) : Char :=
  if 'A' ≤ c ∧ c ≤ 'Z' then Char.ofNat (c.toNat + 32) else c

/-- Whitespace test used by str.strip (ASCII whitespace). -/
def isSpaceChar (c : Char) : Bool :=
  c == ' ' || c == '\t' || c == '\n' || c == '\r'

/-- Strip leading and trailing whitespace from a character list. -/
def stripChars (l : List Char) : List Char :=
  ((l.dropWhile isSpaceChar).reverse.dropWhile isSpaceChar).reverse

/-- Embeds date_range.lower().strip() from list_expenses/summarize_expenses. -/
def lowerStrip (s : String) : String :=
  ⟨stripChars (s.data.map lowerChar)⟩

/-- Substring containment, embedding the Python "needle in haystack" test. -/
def containsSub (needle hay : String) : Prop :=
  needle.data <:+: hay.data

instance (n h : String) : Decidable (containsSub n h) := by
  unfold containsSub; infer_instance

/-- Boolean form of the substring test. -/
def containsSubB (needle hay : String) : Bool :=
  decide (containsSub needle hay)

/-- The digit characters of a string, in order: filter(str.isdigit, s). -/
def digitsOf (s : String) : List Char :=
  s.data.filter (fun c => (digitVal? c).isSome)

/-- The natural number denoted by a list of digit characters:
int(''.join(ds)). -/
def natOfDigitChars (ds : List Char) : Nat :=
  ds.foldl (fun acc c => acc * 10 + (digitVal? c).getD 0) 0

/-! ### Calendar dates

datetime.date values, i.e. proleptic-Gregorian calendar dates with
year 1..9999. -/

structure Date where
  year : Nat
  month : Nat
  day : Nat
deriving DecidableEq, Repr

/-- Gregorian leap-year test. -/
def isLeap (y : Nat) : Bool :=
  y % 4 == 0 && (y % 100 != 0 || y % 400 == 0)

/-- Number of days in a month of a given year. -/
def daysInMonth (y m : Nat) : Nat :=
  if m == 2 then (if isLeap y then 29 else 28)
  else if m == 4 || m == 6 || m == 9 || m == 11 then 30
  else 31

/-- A calendar date that datetime can represent. -/
def Date.Valid (d : Date) : Prop :=
  1 ≤ d.year ∧ d.year ≤ 9999 ∧ 1 ≤ d.month ∧ d.month ≤ 12 ∧
    1 ≤ d.day ∧ d.day ≤ daysInMonth d.year d.month

instance (d : Date) : Decidable d.Valid := by
  unfold Date.Valid; infer_instance

/-- Two zero-padded decimal digits, as strftime %m / %d render them. -/
def pad2Chars (n : Nat) : List Char :=
  [digitCharOf (n / 10 % 10), digitCharOf (n % 10)]

/-- Four zero-padded decimal digits, as strftime %Y renders a year. -/
def pad4Chars (n : Nat) : List Char :=
  [digitCharOf (n / 1000 % 10), digitCharOf (n / 100 % 10),
    digitCharOf (n / 10 % 10), digitCharOf (n % 10)]

/-- strftime("%Y-%m-%d"): the zero-padded ISO-8601 rendering of a date. -/
def formatDate (d : Date) : String :=
  ⟨pad4Chars d.year ++ '-' :: (pad2Chars d.month ++ '-' :: pad2Chars d.day)⟩

/-- Reads a zero-padded ISO-8601 date string YYYY-MM-DD, rejecting anything
that is not a valid calendar date in years 1..9999. -/
def parseIsoDate (s : String) : Option Date :=
  match s.data with
  | [y1, y2, y3, y4, h1, m1, m2, h2, d1, d2] =>
    if h1 = '-' ∧ h2 = '-' then
      match digitVal? y1, digitVal? y2, digitVal? y3, digitVal? y4,
          digitVal? m1, digitVal? m2, digitVal? d1, digitVal? d2 with
      | some a, some b, some c, some e, some f, some g, some h, some i =>
        let y := ((a * 10 + b) * 10 + c) * 10 + e
        let m := f * 10 + g
        let d := h * 10 + i
        if 1 ≤ y ∧ 1 ≤ m ∧ m ≤ 12 ∧ 1 ≤ d ∧ d ≤ daysInMonth y m then
          some ⟨y, m, d⟩
        else none
      | _, _, _, _, _, _, _, _ => none
    else none
  | _ => none

/-- Modelled from the spec: the external fuzzy date parser
(dateutil.parser.parse with fuzzy=True), which is not part of this
repository.  Per the spec it accepts arbitrary date syntax and fails on
unparseable input; the model captures exactly its documented behaviour on
zero-padded ISO-8601 dates (it returns that very date) and treats every
other string as unparseable. -/
def fuzzyParse (s : String) : Option Date :=
  parseIsoDate s

/-- Days in the months of year y strictly before month m. -/
def daysBeforeMonth (y : Nat) : Nat → Nat
  | 0 => 0
  | 1 => 0
  | n + 2 => daysBeforeMonth y (n + 1) + daysInMonth y (n + 1)

/-- Day number of a date, with 0001-01-01 as day 1 (rata die). -/
def toDayNum (dt : Date) : Nat :=
  let c := dt.year - 1
  365 * c + c / 4 - c / 100 + c / 400 + daysBeforeMonth dt.year dt.month + dt.day

/-- datetime.weekday(): Monday is 0.  0001-01-01 is a Monday. -/
def weekday (dt : Date) : Nat :=
  (toDayNum dt + 6) % 7

/-- The previous calendar day (one step of subtracting a timedelta). -/
def predDay (dt : Date) : Date :=
  if 1 < dt.day then { dt with day := dt.day - 1 }
  else if 1 < dt.month then
    ⟨dt.year, dt.month - 1, daysInMonth dt.year (dt.month - 1)⟩
  else ⟨dt.year - 1, 12, 31⟩

/-- The next calendar day (one step of adding a timedelta). -/
def succDay (dt : Date) : Date :=
  if dt.day < daysInMonth dt.year dt.month then { dt with day := dt.day + 1 }
  else if dt.month < 12 then ⟨dt.year, dt.month + 1, 1⟩
  else ⟨dt.year + 1, 1, 1⟩

/-- dt - timedelta(days := n). -/
def subDays (dt : Date) : Nat → Date
  | 0 => dt
  | n + 1 => subDays (predDay dt) n

/-- dt + timedelta(days := n). -/
def addDays (dt : Date) : Nat → Date
  | 0 => dt
  | n + 1 => addDays (succDay dt) n

/-- dt - timedelta(days := n) as Python evaluates it: timedelta rejects more
than 999999999 days and datetime subtraction rejects results before
year 1, both with exceptions (which the "last N days" branch swallows). -/
def subDaysChecked (dt : Date) (n : Nat) : Option Date :=
  if n ≤ 999999999 ∧ n < toDayNum dt then some (subDays dt n) else none

/-! ### Date-range resolution

The date_range / start_date / end_date handling shared verbatim by
list_expenses (src/main.py lines 141-196) and summarize_expenses
(lines 419-473). -/

/-- The independently optional resolved start/end bounds (parsed_start and
parsed_end in the source), already rendered with strftime. -/
structure Bounds where
  start? : Option String
  end? : Option String
deriving DecidableEq, Repr

/-- Resolution of the natural-language date_range keyword, anchored at
today := datetime.now().  An empty or unrecognized keyword yields no
bounds.  In the "last N days" branch a digitless string (int('') raises
ValueError) and an out-of-range subtraction (OverflowError) are swallowed
by the bare except and also yield no bounds. -/
def resolveDateRange (date_range : String) (today : Date) : Bounds :=
  if date_range = "" then ⟨none, none⟩
  else
    let ls := lowerStrip date_range
    if ls = "today" then ⟨some (formatDate today), some (formatDate today)⟩
    else if ls = "yesterday" then
      let y := subDays today 1
      ⟨some (formatDate y), some (formatDate y)⟩
    else if ls = "this week" then
      ⟨some (formatDate (subDays today (weekday today))), some (formatDate today)⟩
    else if ls = "last week" then
      let s := subDays today (weekday today + 7)
      ⟨some (formatDate s), some (formatDate (addDays s 6))⟩
    else if ls = "this month" then
      ⟨some (formatDate { today with day := 1 }), some (formatDate today)⟩
    else if ls = "last month" then
      let e := predDay { today with day := 1 }
      ⟨some (formatDate { e with day := 1 }), some (formatDate e)⟩
    else if ls = "this year" then
      ⟨some (formatDate { today with month := 1, day := 1 }), some (formatDate today)⟩
    else if ls = "last year" then
      ⟨some (toString (today.year - 1) ++ "-01-01"),
        some (toString (today.year - 1) ++ "-12-31")⟩
    else if containsSubB "last" ls && containsSubB "days" ls then
      match digitsOf ls with
      | [] => ⟨none, none⟩
      | ds =>
        match subDaysChecked today (natOfDigitChars ds) with
        | some s => ⟨some (formatDate s), some (formatDate today)⟩
        | none => ⟨none, none⟩
    else ⟨none, none⟩

/-- The exact keyword set of the equality branches of the resolver. -/
def keywordList : List String :=
  ["today", "yesterday", "this week", "last week", "this month",
    "last month", "this year", "last year"]

/-- A date_range string the resolver recognizes (exact keyword or the
"last N days" substring pattern), after lower().strip(). -/
def recognizedKeyword (ls : String) : Prop :=
  ls ∈ keywordList ∨ (containsSub "last" ls ∧ containsSub "days" ls)

/-- Outcome of the whole date-bound resolution, including the explicit
start_date / end_date expressions: either both optional bounds, or the
InvalidDate failure raised by an unparseable explicit date. -/
inductive ResolveOutcome where
  | ok (bounds : Bounds)
  | invalidDate
deriving DecidableEq, Repr

/-- Full date-bound resolution of list_expenses / summarize_expenses:
the keyword resolver first, then each explicit expression is parsed
independently and only where the keyword produced no bound (start first,
as in the source). -/
def resolveRange (date_range start_date end_date : String) (today : Date) :
    ResolveOutcome :=
  let b := resolveDateRange date_range today
  if start_date ≠ "" ∧ b.start? = none then
    match fuzzyParse start_date with
    | none => .invalidDate
    | some d =>
      if end_date ≠ "" ∧ b.end? = none then
        match fuzzyParse end_date with
        | none => .invalidDate
        | some e => .ok ⟨some (formatDate d), some (formatDate e)⟩
      else .ok ⟨some (formatDate d), b.end?⟩
  else
    if end_date ≠ "" ∧ b.end? = none then
      match fuzzyParse end_date with
      | none => .invalidDate
      | some e => .ok ⟨b.start?, some (formatDate e)⟩
    else .ok b

/-! ### The record store

One SQLite table of expense rows; REAL amounts as rationals, the
AUTOINCREMENT id as a never-reused counter. -/

structure Expense where
  id : Nat
  date : String
  amount : ℚ
  category : String
  subcategory : String
  note : String
deriving DecidableEq, Repr

structure Store where
  rows : List Expense
  nextId : Nat
deriving DecidableEq, Repr

/-- SELECT ... FROM expenses WHERE id = ? (the existence check used by
update_expense and delete_expense, and the read operation of the spec). -/
def lookup (st : Store) (eid : Nat) : Option Expense :=
  st.rows.find? (fun e => e.id == eid)

inductive AddResult where
  | added (id : Nat)
  | invalidDate
deriving DecidableEq, Repr

/-- add_expense (src/main.py lines 91-105): parse the date, then INSERT the
row as given; there is no validation of the amount. -/
def add_expense (st : Store) (date : String) (amount : ℚ)
    (category subcategory note : String) : Store × AddResult :=
  match fuzzyParse date with
  | none => (st, .invalidDate)
  | some d =>
    let row : Expense := ⟨st.nextId, formatDate d, amount, category, subcategory, note⟩
    ({ rows := st.rows ++ [row], nextId := st.nextId + 1 }, .added st.nextId)

/-- The optional-field arguments of update_expense with their defaults
(empty strings and amount 0). -/
structure UpdateArgs where
  date : String
  amount : ℚ
  category : String
  subcategory : String
  note : String
deriving DecidableEq, Repr

inductive UpdateResult where
  | notFound
  | invalidDate
  | nothingToUpdate
  | updated
deriving DecidableEq, Repr

/-- The SET clauses of update_expense applied to one row: each field is
overwritten exactly when it was added to the updates list (date already
parsed and reformatted, amount only if strictly positive, the string
fields only if non-empty). -/
def applyUpdate (a : UpdateArgs) (df : Option String) (e : Expense) : Expense :=
  { id := e.id
    date := df.getD e.date
    amount := if 0 < a.amount then a.amount else e.amount
    category := if a.category ≠ "" then a.category else e.category
    subcategory := if a.subcategory ≠ "" then a.subcategory else e.subcategory
    note := if a.note ≠ "" then a.note else e.note }

/-- Second half of update_expense: with the date field already resolved to
df, either report that nothing effective was supplied or run the UPDATE. -/
def runUpdate (st : Store) (eid : Nat) (a : UpdateArgs) (df : Option String) :
    Store × UpdateResult :=
  if df.isSome ∨ 0 < a.amount ∨ a.category ≠ "" ∨ a.subcategory ≠ "" ∨ a.note ≠ "" then
    ({ st with rows := st.rows.map (fun e => if e.id == eid then applyUpdate a df e else e) },
      .updated)
  else (st, .nothingToUpdate)

/-- update_expense (src/main.py lines 286-333): check existence, parse a
non-empty date (an unparseable one aborts the whole call before any
write), collect the effective SET clauses, and either update or report
that there was nothing to update. -/
def update_expense (st : Store) (eid : Nat) (a : UpdateArgs) :
    Store × UpdateResult :=
  match lookup st eid with
  | none => (st, .notFound)
  | some _ =>
    if a.date ≠ "" then
      match fuzzyParse a.date with
      | none => (st, .invalidDate)
      | some pd => runUpdate st eid a (some (formatDate pd))
    else runUpdate st eid a none

inductive DeleteResult where
  | notFound
  | deleted (snapshot : Expense)
deriving DecidableEq, Repr

/-- delete_expense (src/main.py lines 374-391): check existence, then
DELETE FROM expenses WHERE id = ?, returning the deleted row's snapshot. -/
def delete_expense (st : Store) (eid : Nat) : Store × DeleteResult :=
  match lookup st eid with
  | none => (st, .notFound)
  | some e =>
    ({ st with rows := st.rows.filter (fun r => !(r.id == eid)) }, .deleted e)

/-! ### SQLite TEXT comparison

The date filters compare the stored ISO strings with SQLite's memcmp
ordering, which on the ASCII strings involved is lexicographic
comparison of the character lists. -/

/-- Strict lexicographic order on character lists. -/
def chListLt : List Char → List Char → Bool
  | _, [] => false
  | [], _ :: _ => true
  | a :: as, b :: bs => decide (a < b) || (a == b && chListLt as bs)

/-- SQLite's strict order on TEXT values. -/
def strLt (a b : String) : Bool :=
  chListLt a.data b.data

/-- SQLite's non-strict order on TEXT values (date >= ? / date <= ?). -/
def strLe (a b : String) : Bool :=
  !(strLt b a)

/-! ### list_expenses -/

/-- The WHERE clauses of list_expenses (src/main.py lines 199-212):
optional exact category match and inclusive date bounds, combined
with AND. -/
def rowMatches (category : String) (ps pe : Option String) (e : Expense) : Bool :=
  (category == "" || e.category == category) &&
    (match ps with | none => true | some s => strLe s e.date) &&
    (match pe with | none => true | some s => strLe e.date s)

/-- ORDER BY date DESC, id DESC as a relation: a row sorts before another
when its date is larger, or the dates are equal and its id is larger. -/
def listOrder (a b : Expense) : Prop :=
  strLt b.date a.date = true ∨ (a.date = b.date ∧ b.id ≤ a.id)

instance : DecidableRel listOrder := fun a b => by
  unfold listOrder; infer_instance

/-- The rows selected by list_expenses before the LIMIT clause:
WHERE filters, then ORDER BY date DESC, id DESC. -/
def listSelected (st : Store) (category : String) (ps pe : Option String) :
    List Expense :=
  List.insertionSort listOrder (st.rows.filter (rowMatches category ps pe))

/-- The rows list_expenses renders: the sorted selection, truncated by
LIMIT only when the limit parameter is strictly positive. -/
def listRows (st : Store) (category : String) (ps pe : Option String)
    (limit : Int) : List Expense :=
  if 0 < limit then (listSelected st category ps pe).take limit.toNat
  else listSelected st category ps pe

/-- The running total printed at the end of the listing (src/main.py lines
239-253): total starts at 0 and accumulates the amount of each rendered
row. -/
def listTotal (st : Store) (category : String) (ps pe : Option String)
    (limit : Int) : ℚ :=
  (listRows st category ps pe limit).foldl (fun acc e => acc + e.amount) 0

/-! ### summarize_expenses -/

/-- The WHERE clauses of the summary query: the category filter is present
exactly when a category focus was supplied. -/
def summaryMatches (category : String) (ps pe : Option String) (e : Expense) : Bool :=
  (category == "" || e.category == category) &&
    (match ps with | none => true | some s => strLe s e.date) &&
    (match pe with | none => true | some s => strLe e.date s)

/-- The records the summary aggregates. -/
def summaryRecords (st : Store) (category : String) (ps pe : Option String) :
    List Expense :=
  st.rows.filter (summaryMatches category ps pe)

/-- GROUP BY key: subcategory when focused on one category, category
otherwise (src/main.py lines 477-544). -/
def groupKey (category : String) (e : Expense) : String :=
  if category ≠ "" then e.subcategory else e.category

/-- One row of the GROUP BY result: SUM(amount) and COUNT(*) per key. -/
structure GroupRow where
  key : String
  total : ℚ
  count : Nat
deriving DecidableEq, Repr

/-- ORDER BY total DESC on the grouped rows. -/
def groupOrder (a b : GroupRow) : Prop :=
  b.total ≤ a.total

instance : DecidableRel groupOrder := fun a b => by
  unfold groupOrder; infer_instance

/-- The grouped summary rows: one row per distinct key among the matching
records, with the sum and count of that key's records, ordered by
total descending. -/
def summaryGroups (st : Store) (category : String) (ps pe : Option String) :
    List GroupRow :=
  let recs := summaryRecords st category ps pe
  let keys := (recs.map (groupKey category)).dedup
  List.insertionSort groupOrder <| keys.map (fun k =>
    let grp := recs.filter (fun e => groupKey category e == k)
    ⟨k, (grp.map (fun e => e.amount)).sum, grp.length⟩)

/-- grand_total = sum(row[1] for row in results). -/
def grandTotal (st : Store) (category : String) (ps pe : Option String) : ℚ :=
  ((summaryGroups st category ps pe).map (fun g => g.total)).sum

/-- percentage = (total / grand_total * 100) if grand_total > 0 else 0. -/
def percentage (g : GroupRow) (gt : ℚ) : ℚ :=
  if 0 < gt then g.total / gt * 100 else 0

/-! ### Helper lemmas -/

/-- A left fold accumulating amounts is the sum of the mapped amounts. -/
lemma foldl_add_amounts (l : List Expense) (acc : ℚ) :
    l.foldl (fun a e => a + e.amount) acc = acc + (l.map (fun e => e.amount)).sum := by
  induction l generalizing acc with
  | nil => simp
  | cons e t ih => simp [ih, add_assoc]

/-- Updating the rows at one id leaves a lookup of that id pointing at the
updated row, for any id-preserving row transformation. -/
lemma lookup_map_if (rows : List Expense) (eid : Nat) (old : Expense)
    (g : Expense → Expense) (hid : ∀ e, (g e).id = e.id)
    (h : rows.find? (fun e => e.id == eid) = some old) :
    (rows.map (fun e => if e.id == eid then g e else e)).find?
      (fun e => e.id == eid) = some (g old) := by
  rw [List.find?_map]
  have hcomp : ((fun e : Expense => e.id == eid) ∘
      (fun e => if e.id == eid then g e else e)) = (fun e : Expense => e.id == eid) := by
    funext e
    by_cases hc : e.id = eid
    · simp [hc, hid]
    · simp [hc]
  rw [hcomp, h]
  have hpred : old.id = eid := by simpa using List.find?_some h
  simp [hpred]

/-- The store left by runUpdate: either the target row was rewritten by the
SET clauses, or the store is untouched. -/
lemma runUpdate_lookup (st : Store) (eid : Nat) (a : UpdateArgs)
    (df : Option String) (old : Expense) (hold : lookup st eid = some old) :
    lookup (runUpdate st eid a df).1 eid = some (applyUpdate a df old) ∨
    (runUpdate st eid a df).1 = st := by
  unfold runUpdate
  split
  · left
    simpa [lookup] using lookup_map_if st.rows eid old (applyUpdate a df)
      (fun e => rfl) hold
  · right; rfl

/-! ### Claims -/

/-- C7: delete of an existing record removes it, so that a subsequent read
of that identity finds nothing (NotFound), and delete of a nonexistent
identity reports NotFound and leaves the store completely unchanged. -/
theorem delete_then_read_notFound (st : Store) (eid : Nat) :
    (∀ e, lookup st eid = some e →
      (delete_expense st eid).2 = DeleteResult.deleted e ∧
        lookup (delete_expense st eid).1 eid = none) ∧
    (lookup st eid = none → delete_expense st eid = (st, DeleteResult.notFound)) := by
  constructor
  · intro e he
    refine ⟨by simp [delete_expense, he], ?_⟩
    simp only [delete_expense, he]
    simp only [lookup]
    rw [List.find?_eq_none]
    intro x hx
    have hx2 := (List.mem_filter.mp hx).2
    simp only [Bool.not_eq_true'] at hx2
    simp [hx2]
  · intro h
    simp [delete_expense, h]

/-- Witness for C7 at a concrete one-row store. -/
theorem delete_then_read_notFound_witness :
    ((delete_expense ⟨[⟨1, "2025-01-01", 5, "Food", "", ""⟩], 2⟩ 1).2 =
        DeleteResult.deleted ⟨1, "2025-01-01", 5, "Food", "", ""⟩ ∧
      lookup (delete_expense ⟨[⟨1, "2025-01-01", 5, "Food", "", ""⟩], 2⟩ 1).1 1 = none) ∧
    delete_expense ⟨[⟨1, "2025-01-01", 5, "Food", "", ""⟩], 2⟩ 7 =
      (⟨[⟨1, "2025-01-01", 5, "Food", "", ""⟩], 2⟩, DeleteResult.notFound) :=
  ⟨(delete_then_read_notFound ⟨[⟨1, "2025-01-01", 5, "Food", "", ""⟩], 2⟩ 1).1
      ⟨1, "2025-01-01", 5, "Food", "", ""⟩ (by decide),
    (delete_then_read_notFound ⟨[⟨1, "2025-01-01", 5, "Food", "", ""⟩], 2⟩ 7).2 (by decide)⟩

/-- C10: the Total printed at the end of a listing is the sum of the
amounts of exactly the rows rendered after the LIMIT was applied (the
running total accumulates only over the fetched rows). -/
theorem list_total_is_sum_of_rendered (st : Store) (category : String)
    (ps pe : Option String) (limit : Int) :
    listTotal st category ps pe limit =
      ((listRows st category ps pe limit).map (fun e => e.amount)).sum := by
  simp [listTotal, foldl_add_amounts]

/-- C9 counterexample: add_expense performs no validation of the amount, so
a negative amount is persisted as given, refuting the claim that every
record ever stored has a non-negative amount. -/
theorem add_negative_amount_counterexample :
    ¬ ∀ e ∈ (add_expense ⟨[], 1⟩ "2025-03-15" (-1) "Food" "" "").1.rows,
        0 ≤ e.amount := by
  decide

/-- C9 amended: update never writes a non-positive amount, so it preserves
non-negativity of every stored amount, and add preserves it exactly when
the amount it is given is non-negative; the code does not enforce the
invariant against negative amounts passed to add. -/
theorem amount_invariant_amended (st : Store)
    (hst : ∀ e ∈ st.rows, 0 ≤ e.amount) :
    (∀ date amount category subcategory no_te, 0 ≤ amount →
      ∀ e ∈ (add_expense st date amount category subcategory no_te).1.rows,
        0 ≤ e.amount) ∧
    (∀ eid a, ∀ e ∈ (update_expense st eid a).1.rows, 0 ≤ e.amount) := by
  constructor
  · intro date amount category subcategory no_te hamt e he
    unfold add_expense at he
    cases hp : fuzzyParse date with
    | none => rw [hp] at he; exact hst e he
    | some d =>
      rw [hp] at he
      simp only [List.mem_append, List.mem_singleton] at he
      rcases he with he | he
      · exact hst e he
      · subst he; exact hamt
  · intro eid a e he
    have hrun : ∀ df, e ∈ (runUpdate st eid a df).1.rows → 0 ≤ e.amount := by
      intro df hm
      unfold runUpdate at hm
      split at hm
      · simp only [List.mem_map] at hm
        obtain ⟨x, hx, rfl⟩ := hm
        by_cases hc : x.id = eid
        · rw [if_pos (by simpa using hc)]
          simp only [applyUpdate]
          split
          · next hpos => exact le_of_lt hpos
          · exact hst x hx
        · rw [if_neg (by simpa using hc)]
          exact hst x hx
      · exact hst e hm
    cases hl : lookup st eid with
    | none =>
      simp only [update_expense, hl] at he
      exact hst e he
    | some old =>
      simp only [update_expense, hl] at he
      by_cases hd : a.date = ""
      · rw [if_neg (by simp [hd])] at he
        exact hrun none he
      · rw [if_pos hd] at he
        cases hp : fuzzyParse a.date with
        | none => simp only [hp] at he; exact hst e he
        | some pd => simp only [hp] at he; exact hrun _ he

/-- Witness for C9's amended theorem at a concrete store and update. -/
theorem amount_invariant_amended_witness :
    0 ≤ (Expense.mk 1 "2025-01-01" 7 "Food" "" "").amount :=
  (amount_invariant_amended ⟨[⟨1, "2025-01-01", 5, "Food", "", ""⟩], 2⟩
      (by decide)).2 1 ⟨"", 7, "", "", ""⟩
    ⟨1, "2025-01-01", 7, "Food", "", ""⟩ (by decide)

/-- C1: for an existing record, an update leaves every field that was not
effectively supplied (empty-string date/category/subcategory/note, or an
amount not strictly greater than zero) unchanged in the stored record. -/
theorem update_preserves_unsupplied_fields (st : Store) (eid : Nat)
    (a : UpdateArgs) (old : Expense) (hold : lookup st eid = some old) :
    (lookup (update_expense st eid a).1 eid).isSome = true ∧
    ∀ e', lookup (update_expense st eid a).1 eid = some e' →
      (a.date = "" → e'.date = old.date) ∧
      (a.amount ≤ 0 → e'.amount = old.amount) ∧
      (a.category = "" → e'.category = old.category) ∧
      (a.subcategory = "" → e'.subcategory = old.subcategory) ∧
      (a.note = "" → e'.note = old.note) := by
  have frame : ∀ df e', e' = applyUpdate a df old ∨ e' = old →
      (df = none → e'.date = old.date) ∧
      (a.amount ≤ 0 → e'.amount = old.amount) ∧
      (a.category = "" → e'.category = old.category) ∧
      (a.subcategory = "" → e'.subcategory = old.subcategory) ∧
      (a.note = "" → e'.note = old.note) := by
    rintro df e' (rfl | rfl)
    · refine ⟨?_, ?_, ?_, ?_, ?_⟩
      · rintro rfl; simp [applyUpdate]
      · intro h; simp [applyUpdate, not_lt.mpr h]
      · intro h; simp [applyUpdate, h]
      · intro h; simp [applyUpdate, h]
      · intro h; simp [applyUpdate, h]
    · exact ⟨fun _ => rfl, fun _ => rfl, fun _ => rfl, fun _ => rfl, fun _ => rfl⟩
  have main : ∀ df, (df.isSome = true → a.date ≠ "") →
      (lookup (runUpdate st eid a df).1 eid).isSome = true ∧
      ∀ e', lookup (runUpdate st eid a df).1 eid = some e' →
        (a.date = "" → e'.date = old.date) ∧
        (a.amount ≤ 0 → e'.amount = old.amount) ∧
        (a.category = "" → e'.category = old.category) ∧
        (a.subcategory = "" → e'.subcategory = old.subcategory) ∧
        (a.note = "" → e'.note = old.note) := by
    intro df hdf
    rcases runUpdate_lookup st eid a df old hold with hl | hl
    · refine ⟨by rw [hl]; rfl, ?_⟩
      intro e' he'
      rw [hl] at he'
      obtain rfl := (Option.some.inj he').symm
      have hfr := frame df (applyUpdate a df old) (Or.inl rfl)
      refine ⟨?_, hfr.2.1, hfr.2.2.1, hfr.2.2.2.1, hfr.2.2.2.2⟩
      intro hde
      cases df with
      | none => exact hfr.1 rfl
      | some s => exact absurd hde (hdf rfl)
    · refine ⟨by rw [hl, hold]; rfl, ?_⟩
      intro e' he'
      rw [hl, hold] at he'
      obtain rfl := (Option.some.inj he').symm
      exact ⟨fun _ => rfl, fun _ => rfl, fun _ => rfl, fun _ => rfl, fun _ => rfl⟩
  simp only [update_expense, hold]
  by_cases hd : a.date = ""
  · rw [if_neg (by simp [hd])]
    exact main none (by simp)
  · rw [if_pos hd]
    cases hp : fuzzyParse a.date with
    | none =>
      refine ⟨?_, ?_⟩
      · show (lookup st eid).isSome = true
        rw [hold]; rfl
      · intro e' he'
        have he2 : lookup st eid = some e' := he'
        rw [hold] at he2
        obtain rfl := (Option.some.inj he2).symm
        exact ⟨fun _ => rfl, fun _ => rfl, fun _ => rfl, fun _ => rfl, fun _ => rfl⟩
    | some pd =>
      exact main (some (formatDate pd)) (fun _ => hd)

/-! ### Digit and ISO round-trip lemmas -/

lemma digitVal?_elim {c : Char} {v : Nat} (h : digitVal? c = some v) :
    v < 10 ∧ digitCharOf v = c := by
  unfold digitVal? at h
  split_ifs at h with h0 h1 h2 h3 h4 h5 h6 h7 h8 h9
  all_goals (injection h with hv; subst hv; subst_vars; exact ⟨by decide, by decide⟩)

/-- Rendering a parsed zero-padded ISO-8601 date reproduces the original
string: strftime("%Y-%m-%d") is a left inverse of the ISO reading. -/
lemma parse_format {s : String} {dt : Date} (h : parseIsoDate s = some dt) :
    formatDate dt = s := by
  obtain ⟨data⟩ := s
  rcases data with _ | ⟨y1, _ | ⟨y2, _ | ⟨y3, _ | ⟨y4, _ | ⟨c5, _ | ⟨m1, _ | ⟨m2,
    _ | ⟨c8, _ | ⟨d1, _ | ⟨d2, _ | ⟨c11, rest⟩⟩⟩⟩⟩⟩⟩⟩⟩⟩⟩
  · simp [parseIsoDate] at h
  · simp [parseIsoDate] at h
  · simp [parseIsoDate] at h
  · simp [parseIsoDate] at h
  · simp [parseIsoDate] at h
  · simp [parseIsoDate] at h
  · simp [parseIsoDate] at h
  · simp [parseIsoDate] at h
  · simp [parseIsoDate] at h
  · simp [parseIsoDate] at h
  · simp only [parseIsoDate] at h
    split_ifs at h with hh
    obtain ⟨hh1, hh2⟩ := hh
    cases hv1 : digitVal? y1 with
    | none => simp [hv1] at h
    | some va =>
    cases hv2 : digitVal? y2 with
    | none => simp [hv1, hv2] at h
    | some vb =>
    cases hv3 : digitVal? y3 with
    | none => simp [hv1, hv2, hv3] at h
    | some vc =>
    cases hv4 : digitVal? y4 with
    | none => simp [hv1, hv2, hv3, hv4] at h
    | some vd =>
    cases hv5 : digitVal? m1 with
    | none => simp [hv1, hv2, hv3, hv4, hv5] at h
    | some vm1 =>
    cases hv6 : digitVal? m2 with
    | none => simp [hv1, hv2, hv3, hv4, hv5, hv6] at h
    | some vm2 =>
    cases hv7 : digitVal? d1 with
    | none => simp [hv1, hv2, hv3, hv4, hv5, hv6, hv7] at h
    | some vd1 =>
    cases hv8 : digitVal? d2 with
    | none => simp [hv1, hv2, hv3, hv4, hv5, hv6, hv7, hv8] at h
    | some vd2 =>
    simp only [hv1, hv2, hv3, hv4, hv5, hv6, hv7, hv8] at h
    split_ifs at h with hrange
    obtain rfl := (Option.some.inj h).symm
    obtain ⟨ha1, hc1⟩ := digitVal?_elim hv1
    obtain ⟨ha2, hc2⟩ := digitVal?_elim hv2
    obtain ⟨ha3, hc3⟩ := digitVal?_elim hv3
    obtain ⟨ha4, hc4⟩ := digitVal?_elim hv4
    obtain ⟨ha5, hc5⟩ := digitVal?_elim hv5
    obtain ⟨ha6, hc6⟩ := digitVal?_elim hv6
    obtain ⟨ha7, hc7⟩ := digitVal?_elim hv7
    obtain ⟨ha8, hc8⟩ := digitVal?_elim hv8
    apply congrArg String.mk
    have e1 : (((va * 10 + vb) * 10 + vc) * 10 + vd) / 1000 % 10 = va := by omega
    have e2 : (((va * 10 + vb) * 10 + vc) * 10 + vd) / 100 % 10 = vb := by omega
    have e3 : (((va * 10 + vb) * 10 + vc) * 10 + vd) / 10 % 10 = vc := by omega
    have e4 : (((va * 10 + vb) * 10 + vc) * 10 + vd) % 10 = vd := by omega
    have e5 : (vm1 * 10 + vm2) / 10 % 10 = vm1 := by omega
    have e6 : (vm1 * 10 + vm2) % 10 = vm2 := by omega
    have e7 : (vd1 * 10 + vd2) / 10 % 10 = vd1 := by omega
    have e8 : (vd1 * 10 + vd2) % 10 = vd2 := by omega
    simp only [formatDate, pad4Chars, pad2Chars, e1, e2, e3, e4, e5, e6, e7, e8,
      hc1, hc2, hc3, hc4, hc5, hc6, hc7, hc8, List.cons_append, List.nil_append]
    simp [hh1, hh2]
  · simp [parseIsoDate] at h

/-! ### Order laws for the listing order -/

lemma chListLt_trans : ∀ as bs cs : List Char, chListLt as bs = true →
    chListLt bs cs = true → chListLt as cs = true := by
  intro as
  induction as with
  | nil =>
    intro bs cs h1 h2
    cases bs with
    | nil => simp [chListLt] at h1
    | cons b bs =>
      cases cs with
      | nil => simp [chListLt] at h2
      | cons c cs => simp [chListLt]
  | cons a as ih =>
    intro bs cs h1 h2
    cases bs with
    | nil => simp [chListLt] at h1
    | cons b bs =>
      cases cs with
      | nil => simp [chListLt] at h2
      | cons c cs =>
        simp only [chListLt, Bool.or_eq_true, Bool.and_eq_true,
          decide_eq_true_eq, beq_iff_eq] at h1 h2 ⊢
        rcases h1 with h1 | ⟨h1e, h1t⟩ <;> rcases h2 with h2 | ⟨h2e, h2t⟩
        · exact Or.inl (lt_trans h1 h2)
        · exact Or.inl (h2e ▸ h1)
        · exact Or.inl (h1e ▸ h2)
        · exact Or.inr ⟨h1e.trans h2e, ih bs cs h1t h2t⟩

lemma chListLt_connex : ∀ as bs : List Char, as ≠ bs →
    chListLt as bs = true ∨ chListLt bs as = true := by
  intro as
  induction as with
  | nil =>
    intro bs h
    cases bs with
    | nil => exact absurd rfl h
    | cons b bs => exact Or.inl (by simp [chListLt])
  | cons a as ih =>
    intro bs h
    cases bs with
    | nil => exact Or.inr (by simp [chListLt])
    | cons b bs =>
      rcases lt_trichotomy a b with hab | rfl | hab
      · exact Or.inl (by simp [chListLt, hab])
      · have hne : as ≠ bs := fun he => h (by rw [he])
        rcases ih bs hne with ht | ht
        · exact Or.inl (by simp [chListLt, ht])
        · exact Or.inr (by simp [chListLt, ht])
      · exact Or.inr (by simp [chListLt, hab])

lemma str_data_eq {s t : String} (h : s.data = t.data) : s = t := by
  cases s; cases t; exact congrArg String.mk h

instance : IsTrans Expense listOrder := by
  constructor
  intro a b c h1 h2
  rcases h1 with h1 | ⟨h1e, h1i⟩ <;> rcases h2 with h2 | ⟨h2e, h2i⟩
  · exact Or.inl (chListLt_trans _ _ _ h2 h1)
  · exact Or.inl (by rw [← h2e]; exact h1)
  · exact Or.inl (by rw [h1e]; exact h2)
  · exact Or.inr ⟨h1e.trans h2e, le_trans h2i h1i⟩

instance : IsTotal Expense listOrder := by
  constructor
  intro a b
  by_cases hd : a.date = b.date
  · rcases le_total b.id a.id with hi | hi
    · exact Or.inl (Or.inr ⟨hd, hi⟩)
    · exact Or.inr (Or.inr ⟨hd.symm, hi⟩)
  · have hne : a.date.data ≠ b.date.data := fun he => hd (str_data_eq he)
    rcases chListLt_connex _ _ hne with hc | hc
    · exact Or.inr (Or.inl hc)
    · exact Or.inl (Or.inl hc)

/-- C3: for every combination of category and date filters, the sorted
selection is a permutation of exactly the matching records, the rows a
listing renders are sorted by date descending then id descending, a
strictly positive limit N truncates to the first N rows of that order
(hence at most N rows), and limit 0 returns every matching record. -/
theorem list_sorted_and_limited (st : Store) (category : String)
    (ps pe : Option String) (limit : Int) :
    (listSelected st category ps pe).Perm
      (st.rows.filter (rowMatches category ps pe)) ∧
    List.Sorted listOrder (listRows st category ps pe limit) ∧
    (0 < limit → (listRows st category ps pe limit).length ≤ limit.toNat ∧
      listRows st category ps pe limit =
        (listSelected st category ps pe).take limit.toNat) ∧
    (limit = 0 → (listRows st category ps pe limit).Perm
      (st.rows.filter (rowMatches category ps pe))) := by
  have hsorted : List.Sorted listOrder (listSelected st category ps pe) :=
    List.sorted_insertionSort listOrder _
  refine ⟨List.perm_insertionSort listOrder _, ?_, ?_, ?_⟩
  · unfold listRows
    split
    · exact List.Pairwise.sublist (List.take_sublist _ _) hsorted
    · exact hsorted
  · intro hl
    unfold listRows
    rw [if_pos hl]
    refine ⟨?_, rfl⟩
    rw [List.length_take]
    exact min_le_left _ _
  · intro h0
    unfold listRows
    rw [if_neg (by simp [h0])]
    exact List.perm_insertionSort listOrder _

/-- Witness for C3 at a concrete three-row store with limit 0. -/
theorem list_sorted_and_limited_witness :
    (listRows ⟨[⟨1, "2025-01-02", 5, "Food", "", ""⟩, ⟨2, "2025-01-01", 3, "Gas", "", ""⟩,
        ⟨3, "2025-01-02", 2, "Food", "", ""⟩], 4⟩ "" none none 0).Perm
      ((⟨[⟨1, "2025-01-02", 5, "Food", "", ""⟩, ⟨2, "2025-01-01", 3, "Gas", "", ""⟩,
        ⟨3, "2025-01-02", 2, "Food", "", ""⟩], 4⟩ : Store).rows.filter
        (rowMatches "" none none)) :=
  (list_sorted_and_limited ⟨[⟨1, "2025-01-02", 5, "Food", "", ""⟩,
      ⟨2, "2025-01-01", 3, "Gas", "", ""⟩, ⟨3, "2025-01-02", 2, "Food", "", ""⟩], 4⟩
    "" none none 0).2.2.2 rfl

/-! ### Partition of the records by their grouping key -/

lemma sum_filter_not {α : Type} (l : List α) (p : α → Bool) (g : α → ℚ) :
    ((l.filter p).map g).sum + ((l.filter (fun x => !(p x))).map g).sum =
      (l.map g).sum := by
  induction l with
  | nil => simp
  | cons a t ih =>
    by_cases hp : p a = true
    · simp only [List.filter_cons, hp, Bool.not_true, Bool.false_eq_true,
        if_true, if_false, List.map_cons, List.sum_cons]
      rw [← ih]; ring
    · have hp' : p a = false := by simpa using hp
      simp only [List.filter_cons, hp', Bool.not_false, Bool.false_eq_true,
        if_true, if_false, List.map_cons, List.sum_cons]
      rw [← ih]; ring

lemma sum_groups {α : Type} (f : α → String) (g : α → ℚ) :
    ∀ (ks : List String) (l : List α), ks.Nodup → (∀ x ∈ l, f x ∈ ks) →
      (ks.map (fun k => ((l.filter (fun x => f x == k)).map g).sum)).sum =
        (l.map g).sum := by
  intro ks
  induction ks with
  | nil =>
    intro l _ hcov
    have hl : l = [] := by
      cases l with
      | nil => rfl
      | cons x t => exact absurd (hcov x (List.mem_cons_self x t)) (by simp)
    subst hl; simp
  | cons k ks ih =>
    intro l hnd hcov
    obtain ⟨hk, hnd'⟩ := List.nodup_cons.mp hnd
    simp only [List.map_cons, List.sum_cons]
    have htail : ks.map (fun k2 => ((l.filter (fun x => f x == k2)).map g).sum) =
        ks.map (fun k2 =>
          (((l.filter (fun x => !(f x == k))).filter (fun x => f x == k2)).map g).sum) := by
      apply List.map_congr_left
      intro k2 hk2
      have hkk : k2 ≠ k := fun he => hk (he ▸ hk2)
      have hfe : (l.filter (fun x => !(f x == k))).filter (fun x => f x == k2) =
          l.filter (fun x => f x == k2) := by
        rw [List.filter_filter]
        apply List.filter_congr
        intro x hx
        by_cases hc : f x = k2
        · simp [hc, hkk]
        · simp [hc]
      rw [hfe]
    rw [htail]
    have hcov' : ∀ x ∈ l.filter (fun x => !(f x == k)), f x ∈ ks := by
      intro x hx
      obtain ⟨hxl, hxp⟩ := List.mem_filter.mp hx
      rcases List.mem_cons.mp (hcov x hxl) with h | h
      · exact absurd h (by simpa using hxp)
      · exact h
    rw [ih _ hnd' hcov']
    exact sum_filter_not l (fun x => f x == k) g

/-- The per-group SUM(amount) values add up to the sum of all matched
amounts: the grouping partitions the matched records. -/
lemma summaryGroups_sum (st : Store) (category : String) (ps pe : Option String) :
    ((summaryGroups st category ps pe).map (fun g => g.total)).sum =
      ((summaryRecords st category ps pe).map (fun e => e.amount)).sum := by
  unfold summaryGroups
  rw [((List.perm_insertionSort groupOrder _).map (fun g => g.total)).sum_eq]
  rw [List.map_map]
  exact sum_groups (groupKey category) (fun e => e.amount) _ _
    (List.nodup_dedup _)
    (fun x hx => List.mem_dedup.mpr (List.mem_map_of_mem _ hx))

/-- Each reported group row carries exactly the sum and count of the
matched records with its key. -/
lemma summaryGroups_row (st : Store) (category : String) (ps pe : Option String)
    (g : GroupRow) (hg : g ∈ summaryGroups st category ps pe) :
    g.total = (((summaryRecords st category ps pe).filter
        (fun e => groupKey category e == g.key)).map (fun e => e.amount)).sum ∧
    g.count = ((summaryRecords st category ps pe).filter
        (fun e => groupKey category e == g.key)).length := by
  unfold summaryGroups at hg
  rw [(List.perm_insertionSort groupOrder _).mem_iff] at hg
  obtain ⟨k, hk, rfl⟩ := List.mem_map.mp hg
  exact ⟨rfl, rfl⟩

/-- C4: for a non-empty summary, the reported grand total is the sum of the
per-group amount sums (each group's total being the sum of the amounts of
exactly its matched records), and every group's percentage is group total
divided by grand total times 100, with 0 reported instead of dividing
when the grand total is not positive. -/
theorem summary_totals_and_percentages (st : Store) (category : String)
    (ps pe : Option String) (hne : summaryGroups st category ps pe ≠ []) :
    grandTotal st category ps pe =
      ((summaryGroups st category ps pe).map (fun g => g.total)).sum ∧
    grandTotal st category ps pe =
      ((summaryRecords st category ps pe).map (fun e => e.amount)).sum ∧
    ∀ g ∈ summaryGroups st category ps pe,
      g.total = (((summaryRecords st category ps pe).filter
          (fun e => groupKey category e == g.key)).map (fun e => e.amount)).sum ∧
      (0 < grandTotal st category ps pe →
        percentage g (grandTotal st category ps pe) =
          g.total / grandTotal st category ps pe * 100) ∧
      (grandTotal st category ps pe ≤ 0 →
        percentage g (grandTotal st category ps pe) = 0) := by
  refine ⟨rfl, summaryGroups_sum st category ps pe, ?_⟩
  intro g hg
  refine ⟨(summaryGroups_row st category ps pe g hg).1, ?_, ?_⟩
  · intro hpos
    simp [percentage, hpos]
  · intro hz
    simp [percentage, not_lt.mpr hz]

/-- Witness for C4 at a concrete one-row store (the group list is non-empty
but nothing forces evaluation of the rational sums). -/
theorem summary_totals_and_percentages_witness :
    grandTotal ⟨[⟨1, "2025-01-01", 10, "Food", "", ""⟩], 2⟩ "" none none =
      ((summaryRecords ⟨[⟨1, "2025-01-01", 10, "Food", "", ""⟩], 2⟩ "" none none).map
        (fun e => e.amount)).sum :=
  (summary_totals_and_percentages ⟨[⟨1, "2025-01-01", 10, "Food", "", ""⟩], 2⟩
    "" none none (by decide)).2.1

/-- Witness for C1: updating only the category of a concrete record leaves
date, amount, subcategory and note unchanged. -/
theorem update_preserves_unsupplied_fields_witness :
    (Expense.mk 1 "2025-01-01" 5 "Gro" "sub" "n").date =
      (Expense.mk 1 "2025-01-01" 5 "Food" "sub" "n").date :=
  (((update_preserves_unsupplied_fields
      ⟨[⟨1, "2025-01-01", 5, "Food", "sub", "n"⟩], 2⟩ 1 ⟨"", 0, "Gro", "", ""⟩
      ⟨1, "2025-01-01", 5, "Food", "sub", "n"⟩ (by decide)).2
    ⟨1, "2025-01-01", 5, "Gro", "sub", "n"⟩ (by decide)).1 rfl)

/-! ### Resolver lemmas and claims -/

lemma resolveDateRange_unrecognized (date_range : String) (today : Date)
    (h : ¬ recognizedKeyword (lowerStrip date_range)) :
    resolveDateRange date_range today = ⟨none, none⟩ := by
  by_cases he : date_range = ""
  · simp [resolveDateRange, he]
  · have hmem : lowerStrip date_range ∉ keywordList := fun hm => h (Or.inl hm)
    have hld : ¬ (containsSub "last" (lowerStrip date_range) ∧
        containsSub "days" (lowerStrip date_range)) := fun hc => h (Or.inr hc)
    simp only [resolveDateRange]
    rw [if_neg he]
    rw [if_neg (fun hx => hmem (by rw [hx]; decide))]
    rw [if_neg (fun hx => hmem (by rw [hx]; decide))]
    rw [if_neg (fun hx => hmem (by rw [hx]; decide))]
    rw [if_neg (fun hx => hmem (by rw [hx]; decide))]
    rw [if_neg (fun hx => hmem (by rw [hx]; decide))]
    rw [if_neg (fun hx => hmem (by rw [hx]; decide))]
    rw [if_neg (fun hx => hmem (by rw [hx]; decide))]
    rw [if_neg (fun hx => hmem (by rw [hx]; decide))]
    rw [if_neg (fun hx : (containsSubB "last" (lowerStrip date_range) &&
        containsSubB "days" (lowerStrip date_range)) = true => hld (by
      simpa [containsSubB] using hx))]

/-- In the "last N days" branch (a lowered range string containing both
"last" and "days"), the resolver reaches the digit extraction. -/
lemma resolve_last_days (date_range : String) (today : Date)
    (h1 : containsSub "last" (lowerStrip date_range))
    (h2 : containsSub "days" (lowerStrip date_range)) :
    resolveDateRange date_range today =
      (match digitsOf (lowerStrip date_range) with
       | [] => ⟨none, none⟩
       | ds =>
         match subDaysChecked today (natOfDigitChars ds) with
         | some s => ⟨some (formatDate s), some (formatDate today)⟩
         | none => ⟨none, none⟩) := by
  have hne : date_range ≠ "" := by
    intro he
    rw [he] at h1
    exact absurd h1 (by decide)
  simp only [resolveDateRange]
  rw [if_neg hne]
  rw [if_neg (fun hx => absurd (hx ▸ h2) (by decide))]
  rw [if_neg (fun hx => absurd (hx ▸ h2) (by decide))]
  rw [if_neg (fun hx => absurd (hx ▸ h2) (by decide))]
  rw [if_neg (fun hx => absurd (hx ▸ h2) (by decide))]
  rw [if_neg (fun hx => absurd (hx ▸ h2) (by decide))]
  rw [if_neg (fun hx => absurd (hx ▸ h2) (by decide))]
  rw [if_neg (fun hx => absurd (hx ▸ h2) (by decide))]
  rw [if_neg (fun hx => absurd (hx ▸ h2) (by decide))]
  have hcond : (containsSubB "last" (lowerStrip date_range) &&
      containsSubB "days" (lowerStrip date_range)) = true := by
    simp only [containsSubB, Bool.and_eq_true, decide_eq_true_eq]
    exact ⟨h1, h2⟩
  rw [if_pos hcond]

/-- With at least one digit, N within timedelta's bounds and the
subtraction staying at or after year 1, the branch resolves
[today - N days, today]. -/
lemma resolve_last_days_digits (date_range : String) (today : Date)
    (h1 : containsSub "last" (lowerStrip date_range))
    (h2 : containsSub "days" (lowerStrip date_range))
    (h3 : digitsOf (lowerStrip date_range) ≠ [])
    (h4 : natOfDigitChars (digitsOf (lowerStrip date_range)) ≤ 999999999)
    (h5 : natOfDigitChars (digitsOf (lowerStrip date_range)) < toDayNum today) :
    resolveDateRange date_range today =
      ⟨some (formatDate (subDays today
          (natOfDigitChars (digitsOf (lowerStrip date_range))))),
        some (formatDate today)⟩ := by
  rw [resolve_last_days date_range today h1 h2]
  cases hds : digitsOf (lowerStrip date_range) with
  | nil => exact absurd hds h3
  | cons c cs =>
    rw [hds] at h4 h5
    have hchk : subDaysChecked today (natOfDigitChars (c :: cs)) =
        some (subDays today (natOfDigitChars (c :: cs))) := by
      unfold subDaysChecked
      rw [if_pos ⟨h4, h5⟩]
    simp only [hchk]

/-- C2: an unrecognized date_range keyword is silently ignored — resolution
produces no keyword bound and falls through to the explicit start/end
expressions exactly as if no keyword had been given — while a non-empty
unparseable explicit start or end date yields the distinct InvalidDate
error outcome instead of success. -/
theorem resolve_error_asymmetry (date_range start_date end_date : String)
    (today : Date) :
    (¬ recognizedKeyword (lowerStrip date_range) →
      resolveRange date_range start_date end_date today =
        resolveRange "" start_date end_date today) ∧
    (start_date ≠ "" → fuzzyParse start_date = none →
      (resolveDateRange date_range today).start? = none →
      resolveRange date_range start_date end_date today =
        ResolveOutcome.invalidDate) ∧
    (end_date ≠ "" → fuzzyParse end_date = none →
      (resolveDateRange date_range today).end? = none →
      resolveRange date_range start_date end_date today =
        ResolveOutcome.invalidDate) := by
  refine ⟨?_, ?_, ?_⟩
  · intro hun
    have hb := resolveDateRange_unrecognized date_range today hun
    have hb0 : resolveDateRange "" today = ⟨none, none⟩ := by
      simp [resolveDateRange]
    simp only [resolveRange, hb, hb0]
  · intro hsd hparse hps
    simp only [resolveRange]
    rw [if_pos ⟨hsd, hps⟩]
    simp only [hparse]
  · intro hed hparse hpe
    simp only [resolveRange]
    by_cases hstart : start_date ≠ "" ∧
        (resolveDateRange date_range today).start? = none
    · rw [if_pos hstart]
      cases hp : fuzzyParse start_date with
      | none => simp [hp]
      | some d =>
        simp only [hp]
        rw [if_pos ⟨hed, hpe⟩]
        simp only [hparse]
    · rw [if_neg hstart]
      rw [if_pos ⟨hed, hpe⟩]
      simp only [hparse]

/-- Witness for C2: an unparseable explicit end date next to a supplied,
parseable start date yields InvalidDate at concrete inputs. -/
theorem resolve_error_asymmetry_witness :
    resolveRange "soonish" "2025-01-01" "gibberish!" ⟨2025, 3, 15⟩ =
      ResolveOutcome.invalidDate :=
  (resolve_error_asymmetry "soonish" "2025-01-01" "gibberish!" ⟨2025, 3, 15⟩).2.2
    (by decide) (by decide) (by decide)

/-- C5 counterexample: "last 9999999999 days" contains "last" and "days"
and embeds the digit run 9999999999, yet the resolver produces no bounds
at all (timedelta rejects that many days and the bare except swallows
the error), contradicting the claim that every such string resolves to
[now - N days, now]. -/
theorem last_days_counterexample :
    containsSub "last" (lowerStrip "last 9999999999 days") ∧
    containsSub "days" (lowerStrip "last 9999999999 days") ∧
    natOfDigitChars (digitsOf (lowerStrip "last 9999999999 days")) = 9999999999 ∧
    resolveDateRange "last 9999999999 days" ⟨2025, 3, 15⟩ = ⟨none, none⟩ := by
  decide

/-- C5 amended: for a date_range whose lowered, stripped form contains
"last" and "days", with N the number formed by concatenating all its
digit characters in order, the resolver yields start = now - N days and
end = now provided there is at least one digit, N is within timedelta's
999999999-day bound and now - N days does not fall before year 1;
otherwise it silently yields no bounds. -/
theorem last_days_digits_resolution (date_range : String) (today : Date)
    (h1 : containsSub "last" (lowerStrip date_range))
    (h2 : containsSub "days" (lowerStrip date_range))
    (h3 : digitsOf (lowerStrip date_range) ≠ [])
    (h4 : natOfDigitChars (digitsOf (lowerStrip date_range)) ≤ 999999999)
    (h5 : natOfDigitChars (digitsOf (lowerStrip date_range)) < toDayNum today) :
    resolveDateRange date_range today =
      ⟨some (formatDate (subDays today
          (natOfDigitChars (digitsOf (lowerStrip date_range))))),
        some (formatDate today)⟩ :=
  resolve_last_days_digits date_range today h1 h2 h3 h4 h5

/-- Witness for C5's amended theorem on "last 30 days" at a fixed now. -/
theorem last_days_digits_resolution_witness :
    resolveDateRange "last 30 days" ⟨2025, 3, 15⟩ =
      ⟨some "2025-02-13", some "2025-03-15"⟩ := by
  have h := last_days_digits_resolution "last 30 days" ⟨2025, 3, 15⟩
    (by decide) (by decide) (by decide) (by decide) (by decide)
  rw [h]
  decide

/-- C6: with now fixed at invocation, "last 7 days" resolves to the
inclusive range [now - 7 days, now], and "last month" resolves to the
full previous calendar month (for now = 2025-03-15 that is
[2025-02-01, 2025-02-28]). -/
theorem last7days_and_last_month :
    (∀ today : Date, 7 < toDayNum today →
      resolveDateRange "last 7 days" today =
        ⟨some (formatDate (subDays today 7)), some (formatDate today)⟩) ∧
    resolveDateRange "last month" ⟨2025, 3, 15⟩ =
      ⟨some "2025-02-01", some "2025-02-28"⟩ := by
  constructor
  · intro today h7
    have hn : natOfDigitChars (digitsOf (lowerStrip "last 7 days")) = 7 := by decide
    have h := resolve_last_days_digits "last 7 days" today (by decide) (by decide)
      (by decide) (by rw [hn]; omega) (by rw [hn]; exact h7)
    rwa [hn] at h
  · decide

/-- Witness for C6 with now = 2025-03-15 for the "last 7 days" half. -/
theorem last7days_and_last_month_witness :
    resolveDateRange "last 7 days" ⟨2025, 3, 15⟩ =
      ⟨some "2025-03-08", some "2025-03-15"⟩ := by
  have h := last7days_and_last_month.1 ⟨2025, 3, 15⟩ (by decide)
  rw [h]
  decide

/-- C8: an explicit start or end expression that is a valid zero-padded
ISO-8601 date string resolves to exactly that string: parsing followed
by formatting is the identity on such inputs. -/
theorem iso_roundtrip_resolution (s : String) (dt : Date) (today : Date)
    (h : parseIsoDate s = some dt) :
    resolveRange "" s "" today = ResolveOutcome.ok ⟨some s, none⟩ ∧
    resolveRange "" "" s today = ResolveOutcome.ok ⟨none, some s⟩ := by
  have hs : s ≠ "" := by
    intro he
    rw [he] at h
    exact Option.noConfusion h
  have hfmt : formatDate dt = s := parse_format h
  have hb : resolveDateRange "" today = ⟨none, none⟩ := by
    simp [resolveDateRange]
  constructor
  · simp only [resolveRange, hb]
    rw [if_pos ⟨hs, trivial⟩]
    simp only [fuzzyParse, h]
    rw [if_neg (fun hc => hc.1 rfl)]
    rw [hfmt]
  · simp only [resolveRange, hb]
    rw [if_neg (fun hc => hc.1 rfl)]
    rw [if_pos ⟨hs, trivial⟩]
    simp only [fuzzyParse, h]
    rw [hfmt]

/-- Witness for C8 on the concrete ISO date 2025-03-15. -/
theorem iso_roundtrip_resolution_witness :
    resolveRange "" "2025-03-15" "" ⟨2025, 1, 1⟩ =
      ResolveOutcome.ok ⟨some "2025-03-15", none⟩ :=
  (iso_roundtrip_resolution "2025-03-15" ⟨2025, 3, 15⟩ ⟨2025, 1, 1⟩ (by decide)).1

end ExpenseTracker
